import Mathlib

/-!
Verification of the ngorm hook/pipeline engine (src/hooks/default.go) against
its natural-language specification.  Each Go function that a claim depends on
is shallowly embedded as an executable Lean definition; external collaborators
of the repository (scope, util, dialects packages) that are not part of the
source under verification are modelled from the specification's description of
their contracts, and each such definition says so in its doc comment.
-/

namespace Ngorm

/-! ## Query execution (QueryExec, src/hooks/default.go lines 49-108) -/

/-- Kind of the destination value held in `e.Scope.Value`: a struct, a slice,
or anything else (the unsupported case). -/
inductive QDest
  | struct
  | slice
  | other
deriving DecidableEq, Repr

/-- Errors QueryExec can return: the usage error for a bad destination, an SQL
execution error propagated from the backend, and the distinct
record-not-found error (`errmsg.ErrRecordNotFound`). -/
inductive QueryError
  | unsupportedDestination
  | sqlError (msg : String)
  | recordNotFound
deriving DecidableEq, Repr

/-- Outcome of a successful QueryExec: the rows-affected counter, the slice
contents (rows appended in order; empty unless the destination is a slice),
and the struct destination's final scanned row (the last row wins, mirroring
the repeated scan into the same element). Rows are modelled by their ids. -/
structure QueryOut where
  rowsAffected : Nat
  sliceResult : List Nat
  structResult : Option Nat
deriving DecidableEq, Repr

/-- The `for rows.Next()` loop of QueryExec: increments `e.RowsAffected` per
row, appends to the slice destination or re-scans into the struct element. -/
def scanLoop (isSlice : Bool) : List Nat → Nat → List Nat → Option Nat →
    Nat × List Nat × Option Nat
  | [], n, acc, cur => (n, acc, cur)
  | r :: rest, n, acc, cur =>
      if isSlice then scanLoop isSlice rest (n + 1) (acc ++ [r]) cur
      else scanLoop isSlice rest (n + 1) acc (some r)

/-- QueryExec (lines 49-108): rejects non-struct, non-slice destinations
before touching the database, resets a slice destination to an empty slice,
propagates a backend query error, scans all rows, and turns a zero-row result
on a struct destination into `ErrRecordNotFound`.  The backend query outcome
is a parameter (`qr`). -/
def queryExec (dest : QDest) (qr : Except String (List Nat)) :
    Except QueryError QueryOut :=
  match dest with
  | QDest.other => Except.error QueryError.unsupportedDestination
  | QDest.slice =>
      match qr with
      | Except.error e => Except.error (QueryError.sqlError e)
      | Except.ok rows =>
          let out := scanLoop true rows 0 [] none
          Except.ok ⟨out.1, out.2.1, none⟩
  | QDest.struct =>
      match qr with
      | Except.error e => Except.error (QueryError.sqlError e)
      | Except.ok rows =>
          let out := scanLoop false rows 0 [] none
          if out.1 = 0 then Except.error QueryError.recordNotFound
          else Except.ok ⟨out.1, [], out.2.2⟩

/-- C3: executing against a destination that is neither a struct nor a slice
fails with the usage error; zero rows scanned into a struct destination fails
with the record-not-found error, which is distinct from every SQL execution
error; zero rows scanned into a slice destination succeeds with an empty
slice. -/
theorem queryExec_error_policy :
    (∀ qr, queryExec QDest.other qr =
      Except.error QueryError.unsupportedDestination) ∧
    queryExec QDest.struct (Except.ok []) =
      Except.error QueryError.recordNotFound ∧
    queryExec QDest.slice (Except.ok []) = Except.ok ⟨0, [], none⟩ ∧
    (∀ msg, QueryError.recordNotFound ≠ QueryError.sqlError msg) := by
  refine ⟨fun qr => rfl, rfl, rfl, fun msg h => ?_⟩
  exact QueryError.noConfusion h

/-! ## Update and Delete pipelines refuse to run without a WHERE condition
(BeforeUpdate lines 382-385, BeforeDelete lines 850-855, Update lines 785-807,
Delete lines 864-906) -/

/-- Per-operation pipeline state: whether the search carries any condition
(`scope.HasConditions`, modelled from the spec as a boolean on the context),
whether the SQL-build step ran, whether the SQL-exec step ran, and a log of
the steps executed. -/
structure OpState where
  hasConditions : Bool
  sqlBuilt : Bool
  sqlExecuted : Bool
  log : List String
deriving DecidableEq, Repr

/-- The hook driver: run each step in order against the threaded state,
stopping at the first failing step and reporting its error (mirrors the
sequence of `MustExec` calls in Update and Delete). On failure the state of
the failing step's input is returned, since a failing step made no change. -/
def runPipeline : List (OpState → Except String OpState) → OpState →
    OpState × Option String
  | [], s => (s, none)
  | st :: rest, s =>
      match st s with
      | Except.error e => (s, some e)
      | Except.ok s' => runPipeline rest s'

/-- BeforeUpdate (lines 382-416): its first action is the WHERE-condition
check, returning the usage error before any other sub-hook runs. -/
def beforeUpdateStep (s : OpState) : Except String OpState :=
  if !s.hasConditions then Except.error "missing WHERE condition for update"
  else Except.ok { s with log := s.log ++ ["BeforeUpdate"] }

/-- UpdateSQL as a pipeline step: marks the SQL as built. -/
def updateSQLStep (s : OpState) : Except String OpState :=
  Except.ok { s with sqlBuilt := true, log := s.log ++ ["UpdateSQL"] }

/-- UpdateExec as a pipeline step: marks the SQL as executed. -/
def updateExecStep (s : OpState) : Except String OpState :=
  Except.ok { s with sqlExecuted := true, log := s.log ++ ["UpdateExec"] }

/-- AfterUpdate (lines 426-442): re-checks the WHERE condition defensively. -/
def afterUpdateStep (s : OpState) : Except String OpState :=
  if !s.hasConditions then Except.error "missing WHERE condition for update"
  else Except.ok { s with log := s.log ++ ["AfterUpdate"] }

/-- Update (lines 785-807): BeforeUpdate, then HookUpdateSQL, then
HookUpdateExec, then AfterUpdate, each required. -/
def updatePipeline (s : OpState) : OpState × Option String :=
  runPipeline [beforeUpdateStep, updateSQLStep, updateExecStep,
    afterUpdateStep] s

/-- BeforeDelete (lines 850-855): its first action is the WHERE-condition
check. -/
def beforeDeleteStep (s : OpState) : Except String OpState :=
  if !s.hasConditions then Except.error "Missing WHERE clause while deleting"
  else Except.ok { s with log := s.log ++ ["BeforeDelete"] }

/-- DeleteSQL as a pipeline step: marks the SQL as built. -/
def deleteSQLStep (s : OpState) : Except String OpState :=
  Except.ok { s with sqlBuilt := true, log := s.log ++ ["DeleteSQL"] }

/-- The statement-execution block of Delete as a pipeline step: marks the SQL
as executed. -/
def deleteExecStep (s : OpState) : Except String OpState :=
  Except.ok { s with sqlExecuted := true, log := s.log ++ ["DeleteExec"] }

/-- AfterDelete (lines 858-860): runs the after-delete hook; no further
checks. -/
def afterDeleteStep (s : OpState) : Except String OpState :=
  Except.ok { s with log := s.log ++ ["AfterDelete"] }

/-- Delete (lines 864-906): BeforeDelete, then DeleteSQL, then the execution
block, then AfterDelete, each required. -/
def deletePipeline (s : OpState) : OpState × Option String :=
  runPipeline [beforeDeleteStep, deleteSQLStep, deleteExecStep,
    afterDeleteStep] s

/-- C4: an Update or Delete whose context carries no WHERE condition fails
with the respective usage error and leaves the state untouched — in
particular the SQL-build and SQL-exec steps never run, so no SQL statement is
built or executed. -/
theorem update_delete_require_where (s : OpState)
    (h : s.hasConditions = false) :
    updatePipeline s = (s, some "missing WHERE condition for update") ∧
    deletePipeline s = (s, some "Missing WHERE clause while deleting") := by
  constructor
  · simp [updatePipeline, runPipeline, beforeUpdateStep, h]
  · simp [deletePipeline, runPipeline, beforeDeleteStep, h]

/-- Witness for C4 at the fresh condition-free state. -/
theorem update_delete_require_where_witness :
    updatePipeline ⟨false, false, false, []⟩ =
      (⟨false, false, false, []⟩, some "missing WHERE condition for update") ∧
    deletePipeline ⟨false, false, false, []⟩ =
      (⟨false, false, false, []⟩, some "Missing WHERE clause while deleting") :=
  update_delete_require_where ⟨false, false, false, []⟩ rfl

/-! ## Transactional write execution (UpdateExec lines 754-776, the QL block
of Delete lines 875-893, CreateExec lines 249-314) -/

/-- Outcomes of the backend transaction primitives used by a write operation:
Begin, statement Exec, RowsAffected retrieval, Commit and Rollback.  Each is
an input parameter, so every combination of backend behaviours is covered. -/
structure TxOps where
  beginR : Except String Unit
  execR : Except String Unit
  rowsR : Except String Int
  commitR : Except String Unit
  rollbackR : Except String Unit

/-- What the operation did with the transaction: whether Begin succeeded,
whether Commit was issued and succeeded, and whether Rollback was invoked. -/
structure TxTrace where
  began : Bool
  committed : Bool
  rollbackAttempted : Bool
deriving DecidableEq, Repr

/-- UpdateExec (lines 754-776): rejects an empty SQL string, begins a
transaction, executes, on failure rolls back (returning the rollback error
when rollback itself fails, the statement error otherwise), reads the
affected-row count, and commits.  Returns the transaction trace and the
affected-row count or error. -/
def updateExec (sqlEmpty : Bool) (t : TxOps) : TxTrace × Except String Int :=
  if sqlEmpty then (⟨false, false, false⟩, Except.error "missing update sql ")
  else
    match t.beginR with
    | Except.error e => (⟨false, false, false⟩, Except.error e)
    | Except.ok _ =>
        match t.execR with
        | Except.error e =>
            match t.rollbackR with
            | Except.error re => (⟨true, false, true⟩, Except.error re)
            | Except.ok _ => (⟨true, false, true⟩, Except.error e)
        | Except.ok _ =>
            match t.rowsR with
            | Except.error e => (⟨true, false, false⟩, Except.error e)
            | Except.ok r =>
                match t.commitR with
                | Except.error e => (⟨true, false, false⟩, Except.error e)
                | Except.ok _ => (⟨true, true, false⟩, Except.ok r)

/-- The explicit-transaction block of Delete on the QL backend family (lines
875-893): begins, executes, on failure calls Rollback but discards its result
(`_ = tx.Rollback()`) and returns the statement error, then reads the
affected-row count and commits. -/
def deleteExecQL (t : TxOps) : TxTrace × Except String Int :=
  match t.beginR with
  | Except.error e => (⟨false, false, false⟩, Except.error e)
  | Except.ok _ =>
      match t.execR with
      | Except.error e => (⟨true, false, true⟩, Except.error e)
      | Except.ok _ =>
          match t.rowsR with
          | Except.error e => (⟨true, false, false⟩, Except.error e)
          | Except.ok r =>
              match t.commitR with
              | Except.error e => (⟨true, false, false⟩, Except.error e)
              | Except.ok _ => (⟨true, true, false⟩, Except.ok r)

/-- Inputs of CreateExec: the dialect's returning-style suffix, the primary
key field's presence, blank flag, current value and addressability, whether
the dialect is in the QL family, the transaction primitives, the backend's
LastInsertId outcome, and the returning-path QueryRow scan outcome. -/
structure CreateExecArgs where
  returningSuffix : String
  hasPrimaryField : Bool
  pkIsBlank : Bool
  pkValue : Int
  pkAddressable : Bool
  isQL : Bool
  tx : TxOps
  lastInsertIdR : Except String Int
  queryRowScanR : Except String Int

/-- Result of a successful CreateExec: the primary key field's value, its
blank flag (the returning path resets it to false; the fallback path leaves
the flag itself untouched), and the affected-row count. -/
structure CreateExecOut where
  pkValue : Int
  pkIsBlank : Bool
  rowsAffected : Int
deriving DecidableEq, Repr

/-- CreateExec (lines 249-314): when the dialect exposes no returning-style
suffix (or there is no primary field), executes the INSERT — inside an
explicit transaction for the QL family, with rollback-on-error propagating a
failed rollback's error — reads the affected-row count discarding its error
(`e.RowsAffected, _ = result.RowsAffected()`), and assigns the backend's
LastInsertId into the primary key field only when that field was blank.
Otherwise it scans the generated key via QueryRow when the field is
addressable, failing with the unaddressable error when it is not. -/
def createExec (a : CreateExecArgs) : TxTrace × Except String CreateExecOut :=
  if a.returningSuffix = "" ∨ a.hasPrimaryField = false then
    let step : TxTrace × Except String Unit :=
      if a.isQL then
        match a.tx.beginR with
        | Except.error e => (⟨false, false, false⟩, Except.error e)
        | Except.ok _ =>
            match a.tx.execR with
            | Except.error e =>
                match a.tx.rollbackR with
                | Except.error re => (⟨true, false, true⟩, Except.error re)
                | Except.ok _ => (⟨true, false, true⟩, Except.error e)
            | Except.ok _ =>
                match a.tx.commitR with
                | Except.error e => (⟨true, false, false⟩, Except.error e)
                | Except.ok _ => (⟨true, true, false⟩, Except.ok ())
      else
        match a.tx.execR with
        | Except.error e => (⟨false, false, false⟩, Except.error e)
        | Except.ok _ => (⟨false, false, false⟩, Except.ok ())
    match step with
    | (tr, Except.error e) => (tr, Except.error e)
    | (tr, Except.ok _) =>
        let ra : Int :=
          match a.tx.rowsR with
          | Except.ok r => r
          | Except.error _ => 0
        if a.hasPrimaryField && a.pkIsBlank then
          match a.lastInsertIdR with
          | Except.error e => (tr, Except.error e)
          | Except.ok v => (tr, Except.ok ⟨v, a.pkIsBlank, ra⟩)
        else (tr, Except.ok ⟨a.pkValue, a.pkIsBlank, ra⟩)
  else
    if a.pkAddressable then
      match a.queryRowScanR with
      | Except.error e => (⟨false, false, false⟩, Except.error e)
      | Except.ok v => (⟨false, false, false⟩, Except.ok ⟨v, false, 1⟩)
    else (⟨false, false, false⟩, Except.error "unaddressable")

/-- C6: with no returning-style suffix, a successful CreateExec assigns the
backend's last-inserted id into the primary key field exactly when that field
was blank before the insert; a non-blank primary key is left unchanged. -/
theorem createExec_assigns_generated_id (a : CreateExecArgs) (tr : TxTrace)
    (out : CreateExecOut) (v : Int)
    (hsuffix : a.returningSuffix = "")
    (hok : createExec a = (tr, Except.ok out)) :
    (a.pkIsBlank = true → a.hasPrimaryField = true →
      a.lastInsertIdR = Except.ok v → out.pkValue = v) ∧
    (a.pkIsBlank = false → out.pkValue = a.pkValue) := by
  unfold createExec at hok
  rw [hsuffix] at hok
  simp only [true_or, if_true] at hok
  constructor
  · intro hblank hpf hlast
    rw [hblank, hpf, hlast] at hok
    rcases hql : a.isQL <;> rw [hql] at hok <;>
      rcases hb : a.tx.beginR with e | u <;>
      rcases hx : a.tx.execR with e2 | u2 <;>
      rcases hrb : a.tx.rollbackR with e3 | u3 <;>
      rcases hc : a.tx.commitR with e4 | u4 <;>
      simp only [hb, hx, hrb, hc] at hok <;>
      (try simp_all) <;>
      (obtain ⟨h1, h2⟩ := hok; rw [← h2])
  · intro hblank
    rw [hblank] at hok
    rcases hql : a.isQL <;> rw [hql] at hok <;>
      rcases hb : a.tx.beginR with e | u <;>
      rcases hx : a.tx.execR with e2 | u2 <;>
      rcases hrb : a.tx.rollbackR with e3 | u3 <;>
      rcases hc : a.tx.commitR with e4 | u4 <;>
      simp only [hb, hx, hrb, hc] at hok <;>
      (try simp_all) <;>
      (obtain ⟨h1, h2⟩ := hok; rw [← h2])

/-- C5 (amended): for update and the QL fallback create path, a successful
statement execution (with successful affected-row retrieval and commit)
commits the transaction, a failed statement rolls back and returns the
statement error, and a failed rollback's own error is returned instead.  The
QL delete path also commits on success and rolls back on statement failure,
but it discards the rollback outcome and returns the statement error even
when the rollback itself failed. -/
theorem write_tx_commit_rollback (t : TxOps) (e re : String) (r : Int)
    (a : CreateExecArgs) :
    (t.beginR = Except.ok () → t.execR = Except.ok () →
      t.rowsR = Except.ok r → t.commitR = Except.ok () →
      updateExec false t = (⟨true, true, false⟩, Except.ok r) ∧
      deleteExecQL t = (⟨true, true, false⟩, Except.ok r)) ∧
    (t.beginR = Except.ok () → t.execR = Except.error e →
      (t.rollbackR = Except.ok () →
        updateExec false t = (⟨true, false, true⟩, Except.error e)) ∧
      (t.rollbackR = Except.error re →
        updateExec false t = (⟨true, false, true⟩, Except.error re)) ∧
      deleteExecQL t = (⟨true, false, true⟩, Except.error e)) ∧
    (a.returningSuffix = "" → a.isQL = true → a.tx = t →
      (t.beginR = Except.ok () → t.execR = Except.ok () →
        t.commitR = Except.ok () → (createExec a).1 = ⟨true, true, false⟩) ∧
      (t.beginR = Except.ok () → t.execR = Except.error e →
        (t.rollbackR = Except.ok () →
          createExec a = (⟨true, false, true⟩, Except.error e)) ∧
        (t.rollbackR = Except.error re →
          createExec a = (⟨true, false, true⟩, Except.error re)))) := by
  refine ⟨fun hb hx hr hc => ?_, fun hb hx => ?_, fun hs hql htx => ?_⟩
  · constructor <;> simp [updateExec, deleteExecQL, hb, hx, hr, hc]
  · refine ⟨fun hrb => ?_, fun hrb => ?_, ?_⟩
    · simp [updateExec, hb, hx, hrb]
    · simp [updateExec, hb, hx, hrb]
    · simp [deleteExecQL, hb, hx]
  · constructor
    · intro hb hx hc
      unfold createExec
      rw [hs]
      simp only [true_or, if_true, htx, hql, if_true, hb, hx, hc]
      rcases a.hasPrimaryField && a.pkIsBlank <;>
        rcases a.lastInsertIdR <;> simp
    · intro hb hx
      refine ⟨fun hrb => ?_, fun hrb => ?_⟩ <;>
        (unfold createExec; rw [hs];
         simp [htx, hql, hb, hx, hrb])

/-- Witness for C5: a fully successful update transaction commits and reports
three affected rows. -/
theorem write_tx_commit_rollback_witness :
    updateExec false
        ⟨Except.ok (), Except.ok (), Except.ok 3, Except.ok (), Except.ok ()⟩ =
      (⟨true, true, false⟩, Except.ok 3) :=
  ((write_tx_commit_rollback
    ⟨Except.ok (), Except.ok (), Except.ok 3, Except.ok (), Except.ok ()⟩
    "" "" 3
    ⟨"", true, true, 0, true, true,
      ⟨Except.ok (), Except.ok (), Except.ok 3, Except.ok (), Except.ok ()⟩,
      Except.ok 1, Except.ok 0⟩).1 rfl rfl rfl rfl).1

/-- Counterexample for C5 as stated: on the QL delete path a failed statement
whose rollback also fails returns the statement error, not the rollback
error — the rollback failure is silently discarded by `_ = tx.Rollback()`. -/
theorem deleteExecQL_swallows_rollback_error :
    deleteExecQL
        ⟨Except.ok (), Except.error "statement failed", Except.ok 0,
          Except.ok (), Except.error "rollback failed"⟩ =
      (⟨true, false, true⟩, Except.error "statement failed") ∧
    ("statement failed" : String) ≠ "rollback failed" := by
  exact ⟨rfl, by decide⟩

/-- Witness for C6: a blank primary key, no returning suffix, LastInsertId 42;
the key field receives 42. -/
theorem createExec_assigns_generated_id_witness :
    (⟨42, true, 1⟩ : CreateExecOut).pkValue = 42 :=
  (createExec_assigns_generated_id
    ⟨"", true, true, 0, true, false,
      ⟨Except.ok (), Except.ok (), Except.ok 1, Except.ok (), Except.ok ()⟩,
      Except.ok 42, Except.ok 0⟩
    ⟨false, false, false⟩ ⟨42, true, 1⟩ 42 rfl rfl).1 rfl rfl rfl

/-! ## INSERT building (create, src/hooks/default.go lines 165-245) -/

/-- Concatenation of the lists produced for each element, in order; used to
state per-field contributions to the generated INSERT. -/
def catMap {α β : Type} (f : α → List β) : List α → List β
  | [] => []
  | x :: xs => f x ++ catMap f xs

/-- A field of the record being inserted, as the create step sees it: DB
column name, current value (string-rendered), `scope.ChangeableField` verdict
(modelled from the spec as a per-field flag), the IsNormal / IsPrimaryKey /
IsBlank / HasDefaultValue descriptor flags, and the relationship kind with
its owner-side foreign-key DB names. -/
structure CField where
  dbName : String
  value : String
  changeable : Bool
  isNormal : Bool
  isPrimaryKey : Bool
  isBlank : Bool
  hasDefaultValue : Bool
  relKind : Option String
  relForeignDBNames : List String
deriving DecidableEq, Repr

/-- State accumulated by the create step: the column list, the placeholder
list, the positional parameter list (`e.Scope.SQLVars`), and the
blank-column-with-default marker list (`cv`, stored under
`model.BlankColWithValue`). -/
structure InsertParts where
  cols : List String
  placeholders : List String
  vars : List String
  defaultCols : List String
deriving DecidableEq, Repr

/-- One column/placeholder pair: `scope.AddToVars` appends the value to the
positional parameter list and yields the dialect placeholder for its 1-based
position (modelled from the spec's scan/bind service contract). -/
def addToVars (acc : InsertParts) (col val : String) : InsertParts :=
  { acc with
    cols := acc.cols ++ [col]
    placeholders := acc.placeholders ++ ["$" ++ toString (acc.vars.length + 1)]
    vars := acc.vars ++ [val] }

/-- Lookup of `scope.FieldByName` among the record's fields (modelled from the
spec's metadata service contract: resolve a DB name to its field). -/
def findFieldByName (rec : List CField) (nm : String) : Option CField :=
  rec.find? (fun g => g.dbName == nm)

/-- The inner loop over a belongs_to relationship's ForeignDBNames (lines
188-198): each resolvable foreign-key field that is NOT changeable is added
as a column/placeholder pair; an unresolvable name aborts the step. -/
def addForeignCols (rec : List CField) :
    List String → InsertParts → Except String InsertParts
  | [], acc => Except.ok acc
  | fk :: rest, acc =>
      match findFieldByName rec fk with
      | none => Except.error ("no field with name " ++ fk)
      | some ff =>
          if !ff.changeable then
            addForeignCols rec rest (addToVars acc ff.dbName ff.value)
          else addForeignCols rec rest acc

/-- The field loop of create (lines 177-201): a changeable normal field goes
to the default-value marker list when blank with a default, to the column
list when not a blank primary key; a changeable belongs_to relationship field
contributes its non-changeable foreign-key columns. -/
def createLoop (rec : List CField) :
    List CField → InsertParts → Except String InsertParts
  | [], acc => Except.ok acc
  | f :: rest, acc =>
      if f.changeable then
        if f.isNormal then
          if f.isBlank && f.hasDefaultValue then
            createLoop rec rest
              { acc with defaultCols := acc.defaultCols ++ [f.dbName] }
          else if !f.isPrimaryKey || !f.isBlank then
            createLoop rec rest (addToVars acc f.dbName f.value)
          else createLoop rec rest acc
        else
          match f.relKind with
          | some k =>
              if k == "belongs_to" then
                match addForeignCols rec f.relForeignDBNames acc with
                | Except.error e => Except.error e
                | Except.ok acc2 => createLoop rec rest acc2
              else createLoop rec rest acc
          | none => createLoop rec rest acc
      else createLoop rec rest acc

/-- The create step (lines 165-245) restricted to what the claim is about:
the column, placeholder, parameter and default-value-marker lists it
accumulates before rendering the INSERT text. -/
def createInsert (rec : List CField) : Except String InsertParts :=
  createLoop rec rec ⟨[], [], [], []⟩

/-- Columns a single foreign-key name contributes (those resolving to a
non-changeable field). -/
def foreignColContrib (rec : List CField) (fk : String) : List String :=
  match findFieldByName rec fk with
  | none => []
  | some ff => if !ff.changeable then [ff.dbName] else []

/-- Parameters a single foreign-key name contributes. -/
def foreignVarContrib (rec : List CField) (fk : String) : List String :=
  match findFieldByName rec fk with
  | none => []
  | some ff => if !ff.changeable then [ff.value] else []

/-- Columns one field contributes to the INSERT column list, read off the
create loop's branch structure. -/
def fieldColContrib (rec : List CField) (f : CField) : List String :=
  if f.changeable then
    if f.isNormal then
      if f.isBlank && f.hasDefaultValue then []
      else if !f.isPrimaryKey || !f.isBlank then [f.dbName] else []
    else
      match f.relKind with
      | some k =>
          if k == "belongs_to" then
            catMap (foreignColContrib rec) f.relForeignDBNames
          else []
      | none => []
  else []

/-- Parameters one field contributes to the positional parameter list. -/
def fieldVarContrib (rec : List CField) (f : CField) : List String :=
  if f.changeable then
    if f.isNormal then
      if f.isBlank && f.hasDefaultValue then []
      else if !f.isPrimaryKey || !f.isBlank then [f.value] else []
    else
      match f.relKind with
      | some k =>
          if k == "belongs_to" then
            catMap (foreignVarContrib rec) f.relForeignDBNames
          else []
      | none => []
  else []

/-- Entries one field contributes to the default-value marker list. -/
def fieldDefaultContrib (f : CField) : List String :=
  if f.changeable && f.isNormal && f.isBlank && f.hasDefaultValue then
    [f.dbName]
  else []

/-- The column list as the claim words it: changeable, normal, non-primary-key
fields with a non-blank value, plus the non-changeable foreign-key columns of
changeable belongs_to relationship fields. -/
def specInsertCols (rec : List CField) : List String :=
  (rec.filter (fun f =>
      f.changeable && f.isNormal && !f.isPrimaryKey && !f.isBlank)).map
        (fun f => f.dbName) ++
  catMap (fun f =>
      if f.changeable && !f.isNormal && f.relKind == some "belongs_to" then
        catMap (foreignColContrib rec) f.relForeignDBNames
      else []) rec

theorem foreignVarContrib_length (rec : List CField) (fk : String) :
    (foreignVarContrib rec fk).length = (foreignColContrib rec fk).length := by
  unfold foreignVarContrib foreignColContrib
  cases findFieldByName rec fk with
  | none => rfl
  | some ff => by_cases h : ff.changeable = true <;> simp [h]

theorem catMap_length_congr {α : Type} (f g : α → List String)
    (h : ∀ x, (f x).length = (g x).length) :
    ∀ l : List α, (catMap f l).length = (catMap g l).length := by
  intro l
  induction l with
  | nil => rfl
  | cons x xs ih => simp [catMap, h x, ih]

theorem fieldVarContrib_length (rec : List CField) (f : CField) :
    (fieldVarContrib rec f).length = (fieldColContrib rec f).length := by
  have hcat := catMap_length_congr _ _ (foreignVarContrib_length rec)
      f.relForeignDBNames
  unfold fieldVarContrib fieldColContrib
  cases hk : f.relKind with
  | none =>
      cases hc : f.changeable <;> cases hn : f.isNormal <;>
        cases hbl : f.isBlank <;> cases hd : f.hasDefaultValue <;>
        cases hp : f.isPrimaryKey <;> simp [hc, hn, hbl, hd, hp]
  | some k =>
      by_cases hb : k = "belongs_to" <;>
        cases hc : f.changeable <;> cases hn : f.isNormal <;>
        cases hbl : f.isBlank <;> cases hd : f.hasDefaultValue <;>
        cases hp : f.isPrimaryKey <;> simp [hb, hc, hn, hbl, hd, hp, hcat]

theorem addForeignCols_ok (rec : List CField) (fks : List String)
    (acc parts : InsertParts)
    (h : addForeignCols rec fks acc = Except.ok parts) :
    parts.cols = acc.cols ++ catMap (foreignColContrib rec) fks ∧
    parts.vars = acc.vars ++ catMap (foreignVarContrib rec) fks ∧
    parts.placeholders.length + acc.cols.length =
      parts.cols.length + acc.placeholders.length ∧
    parts.defaultCols = acc.defaultCols := by
  induction fks generalizing acc with
  | nil =>
      simp only [addForeignCols] at h
      cases h
      exact ⟨by simp [catMap], by simp [catMap], by omega, rfl⟩
  | cons fk rest ih =>
      simp only [addForeignCols] at h
      cases hf : findFieldByName rec fk with
      | none => rw [hf] at h; exact absurd h (by simp)
      | some ff =>
          rw [hf] at h
          by_cases hc : ff.changeable = true
          · simp only [hc] at h
            simp only [Bool.not_true, Bool.false_eq_true, if_false] at h
            obtain ⟨h1, h2, h3, h4⟩ := ih acc h
            refine ⟨?_, ?_, by omega, h4⟩ <;>
              simp [h1, h2, catMap, foreignColContrib, foreignVarContrib,
                hf, hc]
          · simp only [Bool.not_eq_true] at hc
            simp only [hc] at h
            simp only [Bool.not_false, if_true] at h
            obtain ⟨h1, h2, h3, h4⟩ := ih (addToVars acc ff.dbName ff.value) h
            simp only [addToVars] at h1 h2 h3 h4
            refine ⟨?_, ?_, ?_, h4⟩
            · simp [h1, catMap, foreignColContrib, hf, hc]
            · simp [h2, catMap, foreignVarContrib, hf, hc]
            · simp only [List.length_append, List.length_singleton] at h3 ⊢
              omega

theorem createLoop_ok (rec : List CField) (fs : List CField)
    (acc parts : InsertParts)
    (h : createLoop rec fs acc = Except.ok parts) :
    parts.cols = acc.cols ++ catMap (fieldColContrib rec) fs ∧
    parts.vars = acc.vars ++ catMap (fieldVarContrib rec) fs ∧
    parts.placeholders.length + acc.cols.length =
      parts.cols.length + acc.placeholders.length ∧
    parts.defaultCols = acc.defaultCols ++ catMap fieldDefaultContrib fs := by
  induction fs generalizing acc with
  | nil =>
      simp only [createLoop] at h
      cases h
      exact ⟨by simp [catMap], by simp [catMap], by omega, by simp [catMap]⟩
  | cons f rest ih =>
      simp only [createLoop] at h
      by_cases h1 : f.changeable = true
      case neg =>
        simp only [Bool.not_eq_true] at h1
        simp only [h1, Bool.false_eq_true, if_false] at h
        obtain ⟨g1, g2, g3, g4⟩ := ih acc h
        refine ⟨?_, ?_, by omega, ?_⟩ <;>
          simp [g1, g2, g4, catMap, fieldColContrib, fieldVarContrib,
            fieldDefaultContrib, h1]
      case pos =>
      simp only [h1, if_true] at h
      by_cases h2 : f.isNormal = true
      case neg =>
        simp only [Bool.not_eq_true] at h2
        simp only [h2, Bool.false_eq_true, if_false] at h
        cases hk : f.relKind with
        | none =>
            rw [hk] at h
            obtain ⟨g1, g2, g3, g4⟩ := ih acc h
            refine ⟨?_, ?_, by omega, ?_⟩ <;>
              simp [g1, g2, g4, catMap, fieldColContrib, fieldVarContrib,
                fieldDefaultContrib, h1, h2, hk]
        | some k =>
            rw [hk] at h
            by_cases hb : (k == "belongs_to") = true
            case pos =>
              simp only [hb, if_true] at h
              cases hadd : addForeignCols rec f.relForeignDBNames acc with
              | error e => rw [hadd] at h; exact absurd h (by simp)
              | ok acc2 =>
                  rw [hadd] at h
                  obtain ⟨a1, a2, a3, a4⟩ :=
                    addForeignCols_ok rec f.relForeignDBNames acc acc2 hadd
                  obtain ⟨g1, g2, g3, g4⟩ := ih acc2 h
                  refine ⟨?_, ?_, by omega, ?_⟩ <;>
                    simp [g1, g2, g4, a1, a2, a4, catMap, fieldColContrib,
                      fieldVarContrib, fieldDefaultContrib, h1, h2, hk, hb,
                      List.append_assoc]
            case neg =>
              simp only [hb, Bool.false_eq_true, if_false] at h
              obtain ⟨g1, g2, g3, g4⟩ := ih acc h
              refine ⟨?_, ?_, by omega, ?_⟩ <;>
                simp [g1, g2, g4, catMap, fieldColContrib, fieldVarContrib,
                  fieldDefaultContrib, h1, h2, hk, hb]
      case pos =>
      simp only [h2, if_true] at h
      by_cases h3 : (f.isBlank && f.hasDefaultValue) = true
      case pos =>
        simp only [h3, if_true] at h
        obtain ⟨g1, g2, g3, g4⟩ := ih _ h
        simp only at g1 g2 g3 g4
        refine ⟨?_, ?_, by omega, ?_⟩ <;>
          simp [g1, g2, g4, catMap, fieldColContrib, fieldVarContrib,
            fieldDefaultContrib, h1, h2, h3]
      case neg =>
        simp only [h3, Bool.false_eq_true, if_false] at h
        by_cases h4 : (!f.isPrimaryKey || !f.isBlank) = true
        case pos =>
          simp only [h4, if_true] at h
          obtain ⟨g1, g2, g3, g4⟩ := ih (addToVars acc f.dbName f.value) h
          simp only [addToVars] at g1 g2 g3 g4
          refine ⟨?_, ?_, ?_, ?_⟩
          · simp [g1, catMap, fieldColContrib, h1, h2, h3, h4,
              List.append_assoc]
          · simp [g2, catMap, fieldVarContrib, h1, h2, h3, h4,
              List.append_assoc]
          · simp only [List.length_append, List.length_singleton] at g3 ⊢
            omega
          · simp [g4, catMap, fieldDefaultContrib, h1, h2, h3]
        case neg =>
          simp only [h4, Bool.false_eq_true, if_false] at h
          obtain ⟨g1, g2, g3, g4⟩ := ih acc h
          refine ⟨?_, ?_, by omega, ?_⟩ <;>
            simp [g1, g2, g4, catMap, fieldColContrib, fieldVarContrib,
              fieldDefaultContrib, h1, h2, h3, h4]

/-- C2 (amended): the INSERT column list contains exactly, per field in
order, the changeable normal fields that are neither blank-with-default
(those go to the default-value marker list) nor blank primary keys — in
particular a non-blank primary key and a blank defaultless non-primary field
ARE included — plus the non-changeable foreign-key columns of changeable
belongs_to relationship fields; and the number of columns equals the number
of placeholders, which equals the number of appended parameters. -/
theorem createInsert_characterization (rec : List CField)
    (parts : InsertParts) (h : createInsert rec = Except.ok parts) :
    parts.cols = catMap (fieldColContrib rec) rec ∧
    parts.cols.length = parts.placeholders.length ∧
    parts.placeholders.length = parts.vars.length ∧
    parts.defaultCols = catMap fieldDefaultContrib rec := by
  obtain ⟨g1, g2, g3, g4⟩ := createLoop_ok rec rec ⟨[], [], [], []⟩ parts h
  simp only [List.nil_append] at g1 g2 g3 g4
  refine ⟨g1, by omega, ?_, g4⟩
  have hv : parts.vars.length = (catMap (fieldVarContrib rec) rec).length := by
    rw [g2]
  have hc : parts.cols.length = (catMap (fieldColContrib rec) rec).length := by
    rw [g1]
  have := catMap_length_congr _ _ (fieldVarContrib_length rec) rec
  omega

/-- Witness for C2 (amended) at a two-field record: a non-blank normal field
and a blank field with a default value. -/
theorem createInsert_characterization_witness :
    (⟨["name"], ["$1"], ["bob"], ["age"]⟩ : InsertParts).cols =
      catMap (fieldColContrib
        [⟨"name", "bob", true, true, false, false, false, none, []⟩,
         ⟨"age", "0", true, true, false, true, true, none, []⟩])
        [⟨"name", "bob", true, true, false, false, false, none, []⟩,
         ⟨"age", "0", true, true, false, true, true, none, []⟩] :=
  (createInsert_characterization
    [⟨"name", "bob", true, true, false, false, false, none, []⟩,
     ⟨"age", "0", true, true, false, true, true, none, []⟩]
    ⟨["name"], ["$1"], ["bob"], ["age"]⟩ rfl).1

/-- Counterexample for C2 as stated: a changeable, normal, non-primary-key
field that is blank and has no default value is excluded by the claim's
wording ("fields with a non-blank value") but the create step includes it,
because the code's guard is `!field.IsPrimaryKey || !field.IsBlank`. -/
theorem createInsert_blank_field_counterexample :
    createInsert [⟨"a", "", true, true, false, true, false, none, []⟩] =
      Except.ok ⟨["a"], ["$1"], [""], []⟩ ∧
    specInsertCols [⟨"a", "", true, true, false, true, false, none, []⟩] =
      [] ∧
    (["a"] : List String) ≠ [] := by
  exact ⟨rfl, rfl, by decide⟩

/-! ## The post-create WHERE fix-up (fixWhere, src/hooks/default.go lines
343-372) -/

/-- Whether `needle` occurs in `hay` starting at position `i`. -/
def occursAt (needle hay : List Char) (i : Nat) : Bool :=
  decide ((hay.drop i).take needle.length = needle)

/-- `strings.LastIndex`: the largest index at which `needle` occurs in `hay`,
or `none` when it does not occur (Go returns -1 there). -/
def lastIndexOf (needle hay : List Char) : Option Nat :=
  ((List.range (hay.length + 1)).filter (occursAt needle hay)).getLast?

/-- A positional SQL parameter: signed 64-bit integer, unsigned 64-bit
integer, or anything else (represented by a string). -/
inductive SQLVar
  | intV (n : Int)
  | uintV (n : Nat)
  | strV (s : String)
deriving DecidableEq, Repr

/-- Go's `int64(v)` conversion of a `uint64` value: two's-complement
reinterpretation modulo 2^64. -/
def uint64ToInt64 (n : Nat) : Int :=
  if n % 2 ^ 64 < 2 ^ 63 then ((n % 2 ^ 64 : Nat) : Int)
  else ((n % 2 ^ 64 : Nat) : Int) - 2 ^ 64

/-- The type switch of fixWhere (lines 367-370): only a uint64 parameter is
rewritten, to its int64 reinterpretation; every other parameter is left
unchanged. -/
def coerceVar : SQLVar → SQLVar
  | SQLVar.uintV n => SQLVar.intV (uint64ToInt64 n)
  | v => v

/-- The part of the operation scope fixWhere reads and writes: the SQL text
(as characters) and the positional parameter list. -/
structure SqlScope where
  sql : List Char
  vars : List SQLVar
deriving DecidableEq, Repr

/-- The needle `" id = "` of fixWhere. -/
def idToken : List Char := (" id = ").toList

/-- The replacement `" id()= "` of fixWhere. -/
def idRepToken : List Char := (" id()= ").toList

/-- The needle `"WHERE"` of fixWhere. -/
def whereToken : List Char := ("WHERE").toList

/-- fixWhere (lines 343-372): locates the last `"WHERE"` and the last
`" id = "`; when either is absent or the latter precedes the former, the
scope is returned unchanged; otherwise the `" id = "` occurrence is replaced
by `" id()= "`, the single character one past the occurrence's end (the digit
after the `$` placeholder marker) is parsed with `strconv.Atoi`, decremented,
and the parameter at that index is coerced from uint64 to int64.  Go panics
(out-of-range index) and `Atoi` failures are modelled as errors. -/
def fixWhere (s : SqlScope) : Except String SqlScope :=
  let src := s.sql
  match lastIndexOf whereToken src with
  | none => Except.ok s
  | some lastWhere =>
      match lastIndexOf idToken src with
      | none => Except.ok s
      | some lastID =>
          if lastID < lastWhere then Except.ok s
          else
            let newSql :=
              src.take lastID ++ idRepToken ++ src.drop (lastID + idToken.length)
            let n := lastID + idToken.length + 1
            match src.get? n with
            | none => Except.error "index out of range"
            | some c =>
                if c.isDigit then
                  let ni := c.toNat - ('0').toNat
                  if ni = 0 then Except.error "index out of range"
                  else if h : ni - 1 < s.vars.length then
                    Except.ok ⟨newSql,
                      s.vars.set (ni - 1)
                        (coerceVar (s.vars.get ⟨ni - 1, h⟩))⟩
                  else Except.error "index out of range"
                else Except.error "invalid syntax"

/-- The SQL QLAfterCreate hands to fixWhere in the single-digit case. -/
def qlUpdateSql : List Char := ("UPDATE t SET x = $1 WHERE id = $2").toList

/-- The rewritten form of `qlUpdateSql`. -/
def qlUpdateSqlFixed : List Char :=
  ("UPDATE t SET x = $1 WHERE id()= $2").toList

/-- C7 (amended): fixWhere is a no-op (success, scope unchanged) when
`"WHERE"` is absent, when `" id = "` is absent, or when the last `" id = "`
precedes the last `"WHERE"`; otherwise it replaces the located occurrence
with the row-identity predicate and takes as parameter number the SINGLE
digit character immediately after the `$` placeholder marker, decrements it
to a 0-based index, and coerces the parameter at that index from unsigned to
signed 64-bit (leaving parameters of other types unchanged), as shown on the
`$2` placeholder: parameter index 1 is coerced. -/
theorem fixWhere_spec :
    (∀ s : SqlScope, lastIndexOf whereToken s.sql = none →
      fixWhere s = Except.ok s) ∧
    (∀ s : SqlScope, lastIndexOf idToken s.sql = none →
      fixWhere s = Except.ok s) ∧
    (∀ (s : SqlScope) (lw li : Nat),
      lastIndexOf whereToken s.sql = some lw →
      lastIndexOf idToken s.sql = some li → li < lw →
      fixWhere s = Except.ok s) ∧
    (∀ (v0 v1 : SQLVar) (rest : List SQLVar),
      fixWhere ⟨qlUpdateSql, v0 :: v1 :: rest⟩ =
        Except.ok ⟨qlUpdateSqlFixed, v0 :: coerceVar v1 :: rest⟩) := by
  refine ⟨fun s h => ?_, fun s h => ?_, fun s lw li h1 h2 h3 => ?_,
    fun v0 v1 rest => ?_⟩
  · simp only [fixWhere, h]
  · cases hw : lastIndexOf whereToken s.sql with
    | none => simp only [fixWhere, hw]
    | some lw => simp only [fixWhere, hw, h]
  · simp only [fixWhere, h1, h2]
    simp [h3, Nat.not_lt.mpr (Nat.le_of_lt h3)]
  · have hw : lastIndexOf whereToken qlUpdateSql = some 20 := rfl
    have hi : lastIndexOf idToken qlUpdateSql = some 25 := rfl
    have hg : (qlUpdateSql[32]? : Option Char) = some ('2') := rfl
    have hdig : ('2').isDigit = true := rfl
    have hni : ('2').toNat - ('0').toNat = 2 := rfl
    have hlen6 : idToken.length = 6 := rfl
    have hsql : qlUpdateSql.take 25 ++ (idRepToken ++ qlUpdateSql.drop 31) =
        qlUpdateSqlFixed := rfl
    simp only [fixWhere, hw, hi, hlen6]
    norm_num
    rw [hg]
    simp only [hdig, if_true, hni]
    norm_num
    exact hsql

/-- Witness for C7 (amended): an SQL text with no WHERE clause passes through
unchanged. -/
theorem fixWhere_spec_witness :
    fixWhere ⟨("abc").toList, []⟩ = Except.ok ⟨("abc").toList, []⟩ :=
  fixWhere_spec.1 ⟨("abc").toList, []⟩ rfl

/-- A two-digit placeholder input for fixWhere. -/
def qlSql12 : List Char := ("UPDATE t SET x = $1 WHERE id = $12").toList

/-- The rewritten form of `qlSql12`. -/
def qlSql12Fixed : List Char :=
  ("UPDATE t SET x = $1 WHERE id()= $12").toList

/-- A 12-entry parameter list whose first and last entries are unsigned. -/
def vars12 : List SQLVar :=
  [SQLVar.uintV 7, SQLVar.strV "a", SQLVar.strV "b", SQLVar.strV "c",
   SQLVar.strV "d", SQLVar.strV "e", SQLVar.strV "f", SQLVar.strV "g",
   SQLVar.strV "h", SQLVar.strV "i", SQLVar.strV "j", SQLVar.uintV 9]

/-- `vars12` after fixWhere: entry 0 coerced, entry 11 untouched. -/
def vars12Out : List SQLVar :=
  [SQLVar.intV 7, SQLVar.strV "a", SQLVar.strV "b", SQLVar.strV "c",
   SQLVar.strV "d", SQLVar.strV "e", SQLVar.strV "f", SQLVar.strV "g",
   SQLVar.strV "h", SQLVar.strV "i", SQLVar.strV "j", SQLVar.uintV 9]

/-- Counterexample for C7 as stated: on `"... WHERE id = $12"` the referenced
positional parameter number is 12, so the claim requires the parameter at
0-based index 11 to be coerced to a signed value; the code parses only the
single character `'1'` after the `$`, decrements it, and coerces the
parameter at index 0 instead, leaving index 11 an unsigned value. -/
theorem fixWhere_two_digit_counterexample :
    fixWhere ⟨qlSql12, vars12⟩ = Except.ok ⟨qlSql12Fixed, vars12Out⟩ ∧
    vars12Out.get? 11 = some (SQLVar.uintV 9) ∧
    vars12Out.get? 0 = some (SQLVar.intV 7) ∧
    (∀ n : Int, SQLVar.uintV 9 ≠ SQLVar.intV n) := by
  refine ⟨rfl, rfl, rfl, fun n h => SQLVar.noConfusion h⟩

/-! ## PreloadHasMany and recursive preload descent (src/hooks/default.go
lines 1383-1453, 986-997, 1254-1310) -/

/-- `preloadMap[key] = append(preloadMap[key], result)`: add one row under a
key in an insertion-ordered multi-map. -/
def pmAdd {α : Type} (m : List (String × List α)) (k : String) (r : α) :
    List (String × List α) :=
  match m with
  | [] => [(k, [r])]
  | (k2, g) :: rest =>
      if k2 = k then (k2, g ++ [r]) :: rest else (k2, g) :: pmAdd rest k r

/-- `results, ok := preloadMap[key]`: lookup in the multi-map. -/
def pmLookup {α : Type} (m : List (String × List α)) (k : String) :
    Option (List α) :=
  match m with
  | [] => none
  | (k2, g) :: rest => if k2 = k then some g else pmLookup rest k

/-- The grouping loop of PreloadHasMany (lines 1426-1431): fold the fetched
rows into a multi-map keyed by their string-rendered foreign key. -/
def buildPreloadMap {α : Type} (fk : α → String) (rows : List α) :
    List (String × List α) :=
  rows.foldl (fun m r => pmAdd m (fk r) r) []

/-- Combination of an existing (optional) group with newly added rows, used
to state what folding rows into the multi-map does to one key's group. -/
def combineGroup {α : Type} (o : Option (List α)) (l : List α) :
    Option (List α) :=
  match o, l with
  | none, [] => none
  | none, l => some l
  | some g, l => some (g ++ l)

theorem pmLookup_pmAdd {α : Type} (m : List (String × List α))
    (k k2 : String) (r : α) :
    pmLookup (pmAdd m k2 r) k =
      if k2 = k then some ((pmLookup m k).getD [] ++ [r])
      else pmLookup m k := by
  induction m with
  | nil => by_cases h : k2 = k <;> simp [pmAdd, pmLookup, h]
  | cons p rest ih =>
      obtain ⟨k3, g⟩ := p
      by_cases h1 : k3 = k2
      · subst h1
        by_cases h2 : k3 = k <;> simp [pmAdd, pmLookup, h2]
      · by_cases h2 : k3 = k
        · subst h2
          have hk : ¬k2 = k3 := fun hh => h1 hh.symm
          simp [pmAdd, pmLookup, h1, hk]
        · simp [pmAdd, pmLookup, h1, h2, ih]

theorem pmLookup_foldl {α : Type} (fk : α → String) (rows : List α)
    (m : List (String × List α)) (k : String) :
    pmLookup (rows.foldl (fun m r => pmAdd m (fk r) r) m) k =
      combineGroup (pmLookup m k)
        (rows.filter (fun r => decide (fk r = k))) := by
  induction rows generalizing m with
  | nil => cases h : pmLookup m k <;> simp [combineGroup, h]
  | cons r rs ih =>
      simp only [List.foldl_cons, ih, pmLookup_pmAdd]
      by_cases h : fk r = k
      · simp only [h, if_true, List.filter_cons, decide_eq_true_eq, if_pos h]
        cases hpm : pmLookup m k with
        | none =>
            cases hfil : rs.filter (fun r => decide (fk r = k)) <;>
              simp [combineGroup, hpm, hfil]
        | some g =>
            cases hfil : rs.filter (fun r => decide (fk r = k)) <;>
              simp [combineGroup, hpm, hfil]
      · simp [h, List.filter_cons]

theorem catMap_nil_of_all {α β : Type} (f : α → List β) (l : List α)
    (h : ∀ x ∈ l, f x = []) : catMap f l = [] := by
  induction l with
  | nil => rfl
  | cons x xs ih =>
      simp [catMap, h x (by simp), ih (fun y hy => h y (by simp [hy]))]

/-- A related row at the deepest level: its string-rendered foreign key (the
value grouped on) and a payload id. -/
structure HMRow where
  fk : String
  id : Nat
deriving DecidableEq, Repr

/-- A middle-level record: `fk` is its string-rendered foreign key back to
its owner, `key` its own string-rendered association key, and `rows` its
has_many slice (`none` is Go's nil slice, i.e. a never-assigned field). -/
structure MidRec where
  fk : String
  key : String
  rows : Option (List HMRow)
deriving DecidableEq, Repr

/-- A top-level owner record: association key and has_many slice of
middle-level records. -/
structure TopRec where
  key : String
  kids : Option (List MidRec)
deriving DecidableEq, Repr

/-- Modelled from the spec: `util.ColumnAsArray` collects the key values
needed across all owners at the current level (here the string-rendered
association keys of middle-level owners). -/
def columnAsArrayMid (owners : List MidRec) : List String :=
  owners.map (fun o => o.key)

/-- Modelled from the spec: key collection over top-level owners. -/
def columnAsArrayTop (owners : List TopRec) : List String :=
  owners.map (fun o => o.key)

/-- The assignment loop of PreloadHasMany (lines 1433-1445): a grouped entry
is appended onto the owner's field (`reflect.Append(f, results...)`), an
absent entry makes the field an explicit empty slice (`reflect.MakeSlice`),
never a left-as-default value. -/
def assignHasMany (pm : List (String × List HMRow)) (o : MidRec) : MidRec :=
  match pmLookup pm o.key with
  | some group => { o with rows := some (o.rows.getD [] ++ group) }
  | none => { o with rows := some [] }

/-- PreloadHasMany over a sequence of owners (lines 1383-1453): collect the
owners' association keys; when the set is empty return immediately with no
query; otherwise issue exactly one query filtered by the IN predicate over
those keys (the backend table and its possible failure are the `db`
parameter), group the fetched rows by string-rendered foreign key, and
assign each owner's field from the group map.  Returns the outcome and the
number of secondary queries issued. -/
def preloadHasMany (owners : List MidRec)
    (db : Except String (List HMRow)) :
    Except String (List MidRec) × Nat :=
  let primaryKeys := columnAsArrayMid owners
  if primaryKeys.isEmpty then (Except.ok owners, 0)
  else
    match db with
    | Except.error e => (Except.error e, 1)
    | Except.ok rows =>
        let results := rows.filter (fun r => decide (r.fk ∈ primaryKeys))
        let pm := buildPreloadMap (fun r : HMRow => r.fk) results
        (Except.ok (owners.map (assignHasMany pm)), 1)

/-- The assignment loop of PreloadHasMany at the top level. -/
def assignTopKids (pm : List (String × List MidRec)) (o : TopRec) : TopRec :=
  match pmLookup pm o.key with
  | some group => { o with kids := some (o.kids.getD [] ++ group) }
  | none => { o with kids := some [] }

/-- PreloadHasMany instantiated at the top level of a two-segment path. -/
def preloadTopHasMany (owners : List TopRec)
    (db : Except String (List MidRec)) :
    Except String (List TopRec) × Nat :=
  let primaryKeys := columnAsArrayTop owners
  if primaryKeys.isEmpty then (Except.ok owners, 0)
  else
    match db with
    | Except.error e => (Except.error e, 1)
    | Except.ok rows =>
        let results := rows.filter (fun r => decide (r.fk ∈ primaryKeys))
        let pm := buildPreloadMap (fun r : MidRec => r.fk) results
        (Except.ok (owners.map (assignTopKids pm)), 1)

/-- Splice the middle-level records (updated through their pointers by the
second segment) back into their owners, in order. -/
def reattachKids : List TopRec → List MidRec → List TopRec
  | [], _ => []
  | t :: ts, ms =>
      let n := (t.kids.getD []).length
      { t with kids := some (ms.take n) } :: reattachKids ts (ms.drop n)

/-- The Preload walk (lines 986-997) for a two-segment has_many path "A.B":
run the first segment over the top owners, gather the loaded middle records
via ColumnAsScope (lines 1254-1310), run the second segment over them, and
count the secondary queries issued. -/
def preloadTwoLevel (tops : List TopRec)
    (dbMid : Except String (List MidRec))
    (dbRows : Except String (List HMRow)) :
    Except String (List TopRec) × Nat :=
  match preloadTopHasMany tops dbMid with
  | (Except.error e, q1) => (Except.error e, q1)
  | (Except.ok tops1, q1) =>
      let mids := catMap (fun t => t.kids.getD []) tops1
      match preloadHasMany mids dbRows with
      | (Except.error e, q2) => (Except.error e, q1 + q2)
      | (Except.ok mids2, q2) =>
          (Except.ok (reattachKids tops1 mids2), q1 + q2)

theorem preloadHasMany_eq (owners : List MidRec) (rows : List HMRow)
    (hne : owners ≠ []) :
    preloadHasMany owners (Except.ok rows) =
      (Except.ok (owners.map (fun o =>
        match rows.filter (fun r => decide (r.fk = o.key)) with
        | [] => { o with rows := some [] }
        | g => { o with rows := some (o.rows.getD [] ++ g) })), 1) := by
  have hkeys : (columnAsArrayMid owners).isEmpty = false := by
    cases owners with
    | nil => exact absurd rfl hne
    | cons o os => rfl
  unfold preloadHasMany
  simp only [hkeys, Bool.false_eq_true, if_false, Prod.mk.injEq, and_true]
  congr 1
  apply List.map_congr_left
  intro o ho
  unfold assignHasMany buildPreloadMap
  rw [pmLookup_foldl]
  have hff : (rows.filter
        (fun r => decide (r.fk ∈ columnAsArrayMid owners))).filter
          (fun r => decide (r.fk = o.key)) =
      rows.filter (fun r => decide (r.fk = o.key)) := by
    rw [List.filter_filter]
    apply List.filter_congr
    intro r hr
    by_cases h : r.fk = o.key
    · have hmem : o.key ∈ columnAsArrayMid owners :=
        List.mem_map_of_mem (fun o => o.key) ho
      simp [h, hmem]
    · simp [h]
  simp only [pmLookup, hff]
  cases hfil : rows.filter (fun r => decide (r.fk = o.key)) with
  | nil => simp [combineGroup]
  | cons g gs => simp [combineGroup]

theorem preloadTopHasMany_eq (owners : List TopRec) (rows : List MidRec)
    (hne : owners ≠ []) :
    preloadTopHasMany owners (Except.ok rows) =
      (Except.ok (owners.map (fun o =>
        match rows.filter (fun r => decide (r.fk = o.key)) with
        | [] => { o with kids := some [] }
        | g => { o with kids := some (o.kids.getD [] ++ g) })), 1) := by
  have hkeys : (columnAsArrayTop owners).isEmpty = false := by
    cases owners with
    | nil => exact absurd rfl hne
    | cons o os => rfl
  unfold preloadTopHasMany
  simp only [hkeys, Bool.false_eq_true, if_false, Prod.mk.injEq, and_true]
  congr 1
  apply List.map_congr_left
  intro o ho
  unfold assignTopKids buildPreloadMap
  rw [pmLookup_foldl]
  have hff : (rows.filter
        (fun r => decide (r.fk ∈ columnAsArrayTop owners))).filter
          (fun r => decide (r.fk = o.key)) =
      rows.filter (fun r => decide (r.fk = o.key)) := by
    rw [List.filter_filter]
    apply List.filter_congr
    intro r hr
    by_cases h : r.fk = o.key
    · have hmem : o.key ∈ columnAsArrayTop owners :=
        List.mem_map_of_mem (fun o => o.key) ho
      simp [h, hmem]
    · simp [h]
  simp only [pmLookup, hff]
  cases hfil : rows.filter (fun r => decide (r.fk = o.key)) with
  | nil => simp [combineGroup]
  | cons g gs => simp [combineGroup]

/-- C1: preloading a has_many path over a non-empty sequence of owners whose
relationship fields are still fresh (nil or empty) issues exactly one
secondary query, and afterwards every owner's field is exactly the sequence
of fetched rows whose string-rendered foreign key equals that owner's
string-rendered association key — so its length is that owner's true
related-row count, and an owner with no matching rows holds an explicitly
assigned empty sequence (`some []`), not the unassigned default `none`. -/
theorem preloadHasMany_groups_by_key (owners : List MidRec)
    (rows : List HMRow) (hne : owners ≠ [])
    (hfresh : ∀ o ∈ owners, o.rows.getD [] = []) :
    preloadHasMany owners (Except.ok rows) =
      (Except.ok (owners.map (fun o =>
        { o with
            rows := some (rows.filter (fun r => decide (r.fk = o.key))) })),
        1) := by
  rw [preloadHasMany_eq owners rows hne]
  simp only [Prod.mk.injEq, and_true]
  congr 1
  apply List.map_congr_left
  intro o ho
  cases hfil : rows.filter (fun r => decide (r.fk = o.key)) with
  | nil => simp
  | cons g gs => simp [hfresh o ho]

/-- Witness for C1: two owners, one with two matching rows, one with none;
the second owner receives an explicit empty sequence. -/
theorem preloadHasMany_groups_by_key_witness :
    preloadHasMany [⟨"p", "1", none⟩, ⟨"q", "2", none⟩]
        (Except.ok [⟨"1", 10⟩, ⟨"1", 11⟩, ⟨"3", 12⟩]) =
      (Except.ok [⟨"p", "1", some [⟨"1", 10⟩, ⟨"1", 11⟩]⟩,
        ⟨"q", "2", some []⟩], 1) := by
  rw [preloadHasMany_groups_by_key
    [⟨"p", "1", none⟩, ⟨"q", "2", none⟩]
    [⟨"1", 10⟩, ⟨"1", 11⟩, ⟨"3", 12⟩]
    (List.cons_ne_nil _ _) (by decide)]
  rfl

theorem reattachKids_nil_of_empty (ts : List TopRec)
    (h : ∀ t ∈ ts, t.kids = some []) : reattachKids ts [] = ts := by
  induction ts with
  | nil => rfl
  | cons t rest ih =>
      have ht := h t (by simp)
      have hrest := ih (fun u hu => h u (by simp [hu]))
      obtain ⟨k, kd⟩ := t
      replace ht : kd = some [] := ht
      subst ht
      simp [reattachKids, hrest]

/-- C9: a preload segment whose collected key set is empty issues no query
and succeeds as a no-op — even when the backend query outcome would be an
error, it is never consulted; and on a two-level path "A.B" where segment A
matches zero related rows, segment B runs over zero owners, issuing no
second query and succeeding regardless of its backend outcome (one query in
total, for segment A). -/
theorem preload_empty_segment_no_query :
    (∀ db : Except String (List HMRow),
      preloadHasMany [] db = (Except.ok [], 0)) ∧
    (∀ (tops : List TopRec) (ms : List MidRec)
        (dbRows : Except String (List HMRow)),
      tops ≠ [] →
      (∀ t ∈ tops, ms.filter (fun m => decide (m.fk = t.key)) = []) →
      preloadTwoLevel tops (Except.ok ms) dbRows =
        (Except.ok (tops.map (fun t => { t with kids := some [] })), 1)) := by
  constructor
  · intro db
    rfl
  · intro tops ms dbRows hne hmatch
    unfold preloadTwoLevel
    rw [preloadTopHasMany_eq tops ms hne]
    have htops1 : tops.map (fun o =>
        match ms.filter (fun r => decide (r.fk = o.key)) with
        | [] => { o with kids := some [] }
        | g => { o with kids := some (o.kids.getD [] ++ g) }) =
        tops.map (fun t => { t with kids := some [] }) := by
      apply List.map_congr_left
      intro t ht
      rw [hmatch t ht]
    have hmids : catMap (fun t => t.kids.getD [])
        (tops.map (fun t => { t with kids := some [] })) = [] := by
      apply catMap_nil_of_all
      intro x hx
      obtain ⟨t, ht, rfl⟩ := List.mem_map.mp hx
      rfl
    have hempty : preloadHasMany [] dbRows = (Except.ok [], 0) := rfl
    have hre : reattachKids
        (tops.map (fun t => { t with kids := some [] })) [] =
        tops.map (fun t => { t with kids := some [] }) := by
      apply reattachKids_nil_of_empty
      intro t ht
      obtain ⟨u, hu, rfl⟩ := List.mem_map.mp ht
      rfl
    simp only [htops1, hmids, hempty, hre, Nat.add_zero]

/-- Witness for C9: one owner with key "1", no matching middle rows, and a
failing backend for segment B; the walk still succeeds with one query. -/
theorem preload_empty_segment_no_query_witness :
    preloadTwoLevel [⟨"1", none⟩] (Except.ok [])
        (Except.error "boom") =
      (Except.ok [⟨"1", some []⟩], 1) := by
  rw [preload_empty_segment_no_query.2 [⟨"1", none⟩] []
    (Except.error "boom") (List.cons_ne_nil _ _) (by decide)]
  rfl

/-! ## The Preload dispatch walk (Preload, src/hooks/default.go lines
909-999) -/

/-- A relationship descriptor as the walk consults it: its kind string and
the related type it leads to. -/
structure PRel where
  kind : String
  target : String
deriving DecidableEq, Repr

/-- A field as the walk consults it: its name and optional relationship. -/
structure PFieldInfo where
  name : String
  rel : Option PRel
deriving DecidableEq, Repr

/-- The reflective metadata service (modelled from the spec): the fields of
each record type, by type name. -/
def PSchema : Type := String → List PFieldInfo

/-- The four relationship kinds the dispatch switch accepts (lines
947-967). -/
def knownKind (k : String) : Bool :=
  k == "has_one" || k == "has_many" || k == "belongs_to" || k == "many_to_many"

/-- The field scan of the walk (lines 942-944): the first field whose name
matches the path segment AND whose relationship is present; fields failing
either test are skipped by `continue`. -/
def findRelField (fields : List PFieldInfo) (seg : String) :
    Option PFieldInfo :=
  fields.find? (fun f => f.name == seg && f.rel.isSome)

/-- The Preload walk (lines 920-998) for one dotted path, assuming the
per-kind preload calls themselves succeed: each segment is resolved against
the current type's fields (`currentFields`, refreshed through the descending
`cs` engine); an unmatched segment is a fatal error (lines 976-983) whose
message names the segment and the TOP-LEVEL model type — line 977 builds it
from `scope.GetModelStruct(e, e.Scope.Value)` on the outer engine `e`, which
never descends, so `rootTy` is threaded unchanged through the recursion; an
unknown relationship kind is a fatal error naming the kind (lines 968-970);
otherwise the walk descends into the related type. -/
def preloadWalkFrom (sch : PSchema) (rootTy : String) :
    String → List String → Except String Unit
  | _, [] => Except.ok ()
  | ty, seg :: rest =>
      match findRelField (sch ty) seg with
      | none =>
          Except.error ("can't preload field " ++ seg ++ " for " ++ rootTy)
      | some f =>
          match f.rel with
          | some r =>
              if knownKind r.kind then preloadWalkFrom sch rootTy r.target rest
              else Except.error
                ("hooks: can't preload " ++ r.kind ++ "unsupported relation")
          | none => Except.error "unreachable"

/-- The walk of one path as Preload starts it: the top-level model type is
both the first level's type and the type every unmatched-segment error
names. -/
def preloadWalk (sch : PSchema) (ty : String) (path : List String) :
    Except String Unit :=
  preloadWalkFrom sch ty ty path

/-- The claim's failure condition: some path segment (reached through
known-kind relationship segments) either matches no relationship field on
the current type, or matches one whose kind is not among the four. -/
inductive PreloadFailure (sch : PSchema) : String → List String → Prop
  | unmatched {ty seg : String} {rest : List String}
      (h : findRelField (sch ty) seg = none) :
      PreloadFailure sch ty (seg :: rest)
  | badKind {ty seg : String} {rest : List String} {f : PFieldInfo} {r : PRel}
      (hf : findRelField (sch ty) seg = some f) (hr : f.rel = some r)
      (hk : knownKind r.kind = false) :
      PreloadFailure sch ty (seg :: rest)
  | deeper {ty seg : String} {rest : List String} {f : PFieldInfo} {r : PRel}
      (hf : findRelField (sch ty) seg = some f) (hr : f.rel = some r)
      (hk : knownKind r.kind = true)
      (htail : PreloadFailure sch r.target rest) :
      PreloadFailure sch ty (seg :: rest)

/-- C8: the walk fails exactly when some path segment matches no relationship
field on the current type or names a relationship whose kind is not one of
has_one, has_many, belongs_to, many_to_many; an unmatched segment's error
message names the segment and the TOP-LEVEL model type (built at line 977
from the outer engine's value, whatever level the walk has reached), and a
bad kind's error message names the kind.  There is no silent skip: every
other walk succeeds. -/
theorem preload_fails_iff (sch : PSchema) :
    (∀ rootTy ty path,
      (∃ e, preloadWalkFrom sch rootTy ty path = Except.error e) ↔
      PreloadFailure sch ty path) ∧
    (∀ ty path, (∃ e, preloadWalk sch ty path = Except.error e) ↔
      PreloadFailure sch ty path) ∧
    (∀ rootTy ty seg rest, findRelField (sch ty) seg = none →
      preloadWalkFrom sch rootTy ty (seg :: rest) =
        Except.error ("can't preload field " ++ seg ++ " for " ++ rootTy)) ∧
    (∀ rootTy ty seg rest f r, findRelField (sch ty) seg = some f →
      f.rel = some r → knownKind r.kind = false →
      preloadWalkFrom sch rootTy ty (seg :: rest) =
        Except.error ("hooks: can't preload " ++ r.kind ++
          "unsupported relation")) := by
  have hmain : ∀ rootTy ty path,
      (∃ e, preloadWalkFrom sch rootTy ty path = Except.error e) ↔
      PreloadFailure sch ty path := by
    intro rootTy ty path
    induction path generalizing ty with
    | nil =>
        constructor
        · rintro ⟨e, he⟩
          exact absurd he (by simp [preloadWalkFrom])
        · intro h
          nomatch h
    | cons seg rest ih =>
        cases hf : findRelField (sch ty) seg with
        | none =>
            constructor
            · intro _
              exact PreloadFailure.unmatched hf
            · intro _
              exact ⟨"can't preload field " ++ seg ++ " for " ++ rootTy,
                by simp [preloadWalkFrom, hf]⟩
        | some f =>
            have hp := List.find?_some hf
            simp only [Bool.and_eq_true, Option.isSome_iff_exists] at hp
            obtain ⟨-, r, hr⟩ := hp
            by_cases hk : knownKind r.kind = true
            · constructor
              · rintro ⟨e, he⟩
                simp only [preloadWalkFrom, hf, hr, hk, if_true] at he
                exact PreloadFailure.deeper hf hr hk ((ih r.target).mp ⟨e, he⟩)
              · intro h
                cases h with
                | unmatched h0 => rw [hf] at h0; exact absurd h0 (by simp)
                | badKind hf0 hr0 hk0 =>
                    rw [hf] at hf0
                    cases hf0
                    rw [hr] at hr0
                    cases hr0
                    rw [hk] at hk0
                    exact absurd hk0 (by simp)
                | deeper hf0 hr0 hk0 htail =>
                    rw [hf] at hf0
                    cases hf0
                    rw [hr] at hr0
                    cases hr0
                    obtain ⟨e, he⟩ := (ih _).mpr htail
                    exact ⟨e, by simp [preloadWalkFrom, hf, hr, hk, he]⟩
            · rw [Bool.not_eq_true] at hk
              constructor
              · intro _
                exact PreloadFailure.badKind hf hr hk
              · intro _
                exact ⟨"hooks: can't preload " ++ r.kind ++
                  "unsupported relation",
                  by simp [preloadWalkFrom, hf, hr, hk]⟩
  refine ⟨hmain, fun ty path => hmain ty ty path,
    fun rootTy ty seg rest h => ?_,
    fun rootTy ty seg rest f r hf hr hk => ?_⟩
  · simp [preloadWalkFrom, h]
  · simp [preloadWalkFrom, hf, hr, hk]

/-- A two-type demo schema for the walk. -/
def demoSchema : PSchema := fun ty =>
  if ty = "Order" then [⟨"Items", some ⟨"has_many", "Item"⟩⟩] else []

/-- Witness for C8: the two-segment path "Items.Nope" on type "Order" fails
at its second segment, and the error names the TOP-LEVEL type "Order", not
the intermediate type "Item" the walk had descended to. -/
theorem preload_fails_iff_witness :
    preloadWalk demoSchema "Order" ["Items", "Nope"] =
      Except.error ("can't preload field " ++ "Nope" ++ " for " ++ "Order") := by
  have h := (preload_fails_iff demoSchema).2.2.1 "Order" "Item" "Nope" [] rfl
  calc preloadWalk demoSchema "Order" ["Items", "Nope"]
      = preloadWalkFrom demoSchema "Order" "Item" ["Nope"] := rfl
    _ = Except.error ("can't preload field " ++ "Nope" ++ " for " ++ "Order") :=
      h

/-! ## AfterAssociation early return (src/hooks/default.go lines 516-641) -/

/-- Observable actions of the cascade save-associations step: creating a
slice element, inserting its join-table row, creating a singular related
value. -/
inductive SaveEvent
  | created (fieldIdx elemIdx : Nat)
  | joinRow (fieldIdx elemIdx : Nat)
  | createdSingle (fieldIdx : Nat)
deriving DecidableEq, Repr

/-- An association field of the record being saved: relationship kind,
whether its value is a slice, its elements (by id), and whether the
relationship carries a join-table handler. -/
structure AssocField where
  kind : String
  isSlice : Bool
  elems : List Nat
  hasJoinHandler : Bool
deriving DecidableEq, Repr

/-- The slice loop of AfterAssociation (lines 532-600): each element is
created; when the relationship has a join-table handler the join row is
inserted and the enclosing function RETURNS (lines 574-598: `return
tx.Commit()` on QL, `return err` otherwise), so the loop never reaches the
next element.  The boolean reports whether that return fired. -/
def saveSliceElems (fi : Nat) (hasJoin : Bool) :
    List Nat → Nat → List SaveEvent × Bool
  | [], _ => ([], false)
  | _e :: rest, i =>
      if hasJoin then ([SaveEvent.created fi i, SaveEvent.joinRow fi i], true)
      else
        let out := saveSliceElems fi hasJoin rest (i + 1)
        (SaveEvent.created fi i :: out.1, out.2)

/-- The kinds the cascade switch handles (lines 526-529). -/
def assocKind (k : String) : Bool :=
  k == "has_many" || k == "has_one" || k == "many_to_many"

/-- The field loop of AfterAssociation: slice fields run the element loop
(stopping the whole function if it returned), singular fields create their
value once. -/
def afterAssocFields : List AssocField → Nat → List SaveEvent
  | [], _ => []
  | f :: rest, fi =>
      if assocKind f.kind then
        if f.isSlice then
          let out := saveSliceElems fi f.hasJoinHandler f.elems 0
          if out.2 then out.1 else out.1 ++ afterAssocFields rest (fi + 1)
        else SaveEvent.createdSingle fi :: afterAssocFields rest (fi + 1)
      else afterAssocFields rest (fi + 1)

/-- AfterAssociation (lines 516-641): when association saving is enabled,
run the field loop over the record's association fields. -/
def afterAssociation (shouldSave : Bool) (fields : List AssocField) :
    List SaveEvent :=
  if shouldSave then afterAssocFields fields 0 else []

/-- C10: a many_to_many slice field of two or more elements whose
relationship carries a join-table handler makes the cascade return right
after creating the first element and inserting its join row: no later
element of the slice is created (no event for element index 1 or beyond) and
even a subsequent association field of the record is never processed. -/
theorem afterAssociation_m2m_early_return (a b c : Nat) (rest : List Nat) :
    afterAssociation true
        [⟨"many_to_many", true, a :: b :: rest, true⟩] =
      [SaveEvent.created 0 0, SaveEvent.joinRow 0 0] ∧
    afterAssociation true
        [⟨"many_to_many", true, a :: b :: rest, true⟩,
         ⟨"has_many", true, [c], false⟩] =
      [SaveEvent.created 0 0, SaveEvent.joinRow 0 0] :=
  ⟨rfl, rfl⟩

end Ngorm
